import Mathlib

/-!
Verification of the client-component lifecycle manager of the firebase-js-sdk
snapshot: the get-or-create registry mapping each Firestore handle to the
promise of its client runtime.

Shallow embedding notes:
* the JavaScript Map from Firestore instances to promises becomes an
  association list keyed by a numeric handle key;
* a stored promise becomes a record carrying a unique promise id, the id of
  the client runtime it will resolve to, and a settlement field that is none
  while construction is in flight and otherwise records success or the
  rejection error;
* asynchrony becomes explicit events: the settlement of a start() call and
  the completion of terminate() are separate environment steps, so the
  intermediate states the claims talk about are observable.
-/

set_option autoImplicit false

namespace FirebaseLifecycle

/-- Error codes used by the embedded code paths
(src/packages/firestore util/error Code values that appear here). -/
inductive Code where
  | failedPrecondition
  | invalidArgument
  | internal
  deriving DecidableEq, Repr

/-- FirestoreError: an error code together with its message string. -/
structure FirestoreError where
  code : Code
  message : String
  deriving DecidableEq, Repr

/-- Settings snapshot held by a handle: host, ssl and cacheSizeBytes are all
optional, none standing for the JavaScript undefined. -/
structure Settings where
  host : Option String := none
  ssl : Option Bool := none
  cacheSizeBytes : Option Int := none
  deriving DecidableEq, Repr

/-- Database identity (src/core/database_info DatabaseId). -/
structure DatabaseId where
  projectId : String
  database : String
  deriving DecidableEq, Repr

/-- DatabaseInfo as constructed by initializeFirestoreClient and getDatastore
(src/core/database_info). -/
structure DatabaseInfo where
  databaseId : DatabaseId
  persistenceKey : String
  host : String
  ssl : Bool
  forceLongPolling : Bool
  deriving DecidableEq, Repr

/-- settings() default host (components.ts DEFAULT_HOST). -/
def DEFAULT_HOST : String := "firestore.googleapis.com"

/-- settings() default ssl flag (components.ts DEFAULT_SSL). -/
def DEFAULT_SSL : Bool := true

/-- The component provider chosen for a client runtime: memory corresponds to
MemoryComponentProvider, the durable variants to IndexedDbComponentProvider
and MultiTabIndexedDbComponentProvider. -/
inductive ProviderKind where
  | memory
  | indexedDb
  | multiTabIndexedDb
  deriving DecidableEq, Repr

/-- PersistenceSettings passed to FirestoreClient.start. -/
structure PersistenceSettings where
  durable : Bool
  synchronizeTabs : Option Bool := none
  cacheSizeBytes : Option Int := none
  deriving DecidableEq, Repr

/-- The exp Firestore handle: key identifies the instance (Map identity),
the remaining fields embed the instance fields read by components.ts. -/
structure Firestore where
  key : Nat
  _terminated : Bool
  _databaseId : DatabaseId
  _persistenceKey : String
  _settings : Settings
  deriving DecidableEq, Repr

/-- Runtime state of a client (spec state machine; terminated is absorbing). -/
inductive RuntimeState where
  | starting
  | running
  | terminating
  | terminated
  deriving DecidableEq, Repr

/-- The client runtime record created by initializeFirestoreClient: its state
plus the construction arguments (DatabaseInfo, provider, persistence
settings) so they can be inspected. -/
structure ClientRuntime where
  state : RuntimeState
  dbInfo : DatabaseInfo
  provider : ProviderKind
  persistence : PersistenceSettings
  deriving DecidableEq, Repr

instance {ε α : Type} [DecidableEq ε] [DecidableEq α] :
    DecidableEq (Except ε α) := fun a b =>
  match a, b with
  | .ok x, .ok y => decidable_of_iff (x = y) (by simp)
  | .ok _, .error _ => .isFalse (by simp)
  | .error _, .ok _ => .isFalse (by simp)
  | .error x, .error y => decidable_of_iff (x = y) (by simp)

/-- A stored map value: the promise produced by
initializationPromise.then of the new FirestoreClient. promiseId is the
identity of the promise object, clientId the runtime it resolves to, and
settled is none while start() is pending, some (Except.ok ()) once it
resolved, some (Except.error e) once it rejected with e. -/
structure ClientEntry where
  promiseId : Nat
  clientId : Nat
  settled : Option (Except FirestoreError Unit)
  deriving DecidableEq, Repr

/-- Association-list lookup keyed by Nat. -/
def alget {β : Type} (k : Nat) : List (Nat × β) → Option β
  | [] => none
  | (k₂, v) :: t => if k₂ = k then some v else alget k t

/-- Association-list insert-or-replace (Map.prototype.set). -/
def alset {β : Type} (k : Nat) (v : β) : List (Nat × β) → List (Nat × β)
  | [] => [(k, v)]
  | (k₂, w) :: t => if k₂ = k then (k, v) :: t else (k₂, w) :: alset k v t

/-- Association-list delete (Map.prototype.delete). Removes every pair with
the key; on a JavaScript Map keys are unique, so this agrees with deleting
the single binding. -/
def aldel {β : Type} (k : Nat) : List (Nat × β) → List (Nat × β)
  | [] => []
  | (k₂, w) :: t => if k₂ = k then aldel k t else (k₂, w) :: aldel k t

theorem alget_alset_self {β : Type} (k : Nat) (v : β) (l : List (Nat × β)) :
    alget k (alset k v l) = some v := by
  induction l with
  | nil => simp [alget, alset]
  | cons p t ih =>
    obtain ⟨k₂, w⟩ := p
    by_cases h : k₂ = k <;> simp [alget, alset, h, ih]

theorem alget_alset_ne {β : Type} (k j : Nat) (v : β) (l : List (Nat × β))
    (h : j ≠ k) : alget j (alset k v l) = alget j l := by
  induction l with
  | nil => simp [alget, alset, Ne.symm h]
  | cons p t ih =>
    obtain ⟨k₂, w⟩ := p
    by_cases h₂ : k₂ = k
    · subst h₂
      simp [alget, alset, Ne.symm h]
    · simp only [alset, if_neg h₂]
      by_cases h₃ : k₂ = j <;> simp [alget, h₃, ih]

theorem alget_aldel_self {β : Type} (k : Nat) (l : List (Nat × β)) :
    alget k (aldel k l) = none := by
  induction l with
  | nil => simp [alget, aldel]
  | cons p t ih =>
    obtain ⟨k₂, w⟩ := p
    by_cases h : k₂ = k <;> simp [aldel, alget, h, ih]

theorem alget_aldel_ne {β : Type} (k j : Nat) (l : List (Nat × β))
    (h : j ≠ k) : alget j (aldel k l) = alget j l := by
  induction l with
  | nil => simp [aldel]
  | cons p t ih =>
    obtain ⟨k₂, w⟩ := p
    by_cases h₂ : k₂ = k
    · subst h₂
      simp [aldel, alget, Ne.symm h, ih]
    · by_cases h₃ : k₂ = j <;> simp [aldel, alget, h₂, h₃, h, ih]

/-- State of the exp lifecycle manager: the firestoreClientInstances map,
the runtimes the stored promises resolve to (keyed by client id), and a
fresh-id counter for allocating promise and client identities. -/
structure Sys where
  instances : List (Nat × ClientEntry)
  runtimes : List (Nat × ClientRuntime)
  nextId : Nat
  deriving DecidableEq, Repr

/-- The empty registry: no handle has been provisioned. -/
def emptySys : Sys := ⟨[], [], 0⟩

/-- hasFirestoreClient from exp components.ts: map membership test. -/
def hasFirestoreClient (fs : Firestore) (s : Sys) : Bool :=
  (alget fs.key s.instances).isSome

/-- The error thrown by initializeFirestoreClient when the handle is
terminated or already has a stored client. -/
def alreadyStartedError : FirestoreError :=
  ⟨.failedPrecondition,
    "Firestore has already been started and persistence can no longer be enabled. You can only enable persistence before calling any other methods on a Firestore object."⟩

/-- The error thrown by getFirestoreClient on a terminated handle. -/
def alreadyTerminatedError : FirestoreError :=
  ⟨.failedPrecondition, "The client has already been terminated."⟩

/-- initializeFirestoreClient from exp components.ts. Throws the
FAILED_PRECONDITION already-started error when the handle is terminated or
an entry is stored; otherwise builds the DatabaseInfo from the handle
settings (defaulting host and ssl, forceLongPolling false), creates the
client runtime, and stores the promise of the client in the map before
returning. The returned Nat is the identity of the initialization promise;
the stored entry is pending until the environment settles start(). -/
def initializeFirestoreClient (fs : Firestore) (componentProvider : ProviderKind)
    (persistenceSettings : PersistenceSettings) (s : Sys) :
    Except FirestoreError (Sys × Nat) :=
  if fs._terminated || hasFirestoreClient fs s then
    .error alreadyStartedError
  else
    let settings := fs._settings
    let databaseInfo : DatabaseInfo :=
      { databaseId := fs._databaseId
        persistenceKey := fs._persistenceKey
        host := settings.host.getD DEFAULT_HOST
        ssl := settings.ssl.getD DEFAULT_SSL
        forceLongPolling := false }
    let clientId := s.nextId
    let promiseId := s.nextId + 1
    let firestoreClient : ClientRuntime :=
      ⟨.starting, databaseInfo, componentProvider, persistenceSettings⟩
    let entry : ClientEntry := ⟨promiseId, clientId, none⟩
    .ok ({ instances := alset fs.key entry s.instances
           runtimes := alset clientId firestoreClient s.runtimes
           nextId := s.nextId + 2 }, promiseId)

/-- getFirestoreClient from exp components.ts. Throws on a terminated
handle; otherwise returns the stored entry, first creating one through
initializeFirestoreClient with the MemoryComponentProvider and
durable false when none is stored. The internal-error branch is dead code
needed only for totality: after a successful initializeFirestoreClient the
entry is always present. -/
def getFirestoreClient (fs : Firestore) (s : Sys) :
    Except FirestoreError (Sys × ClientEntry) :=
  if fs._terminated then
    .error alreadyTerminatedError
  else
    match alget fs.key s.instances with
    | some entry => .ok (s, entry)
    | none =>
      match initializeFirestoreClient fs .memory { durable := false } s with
      | .error e => .error e
      | .ok (s₂, _) =>
        match alget fs.key s₂.instances with
        | some entry => .ok (s₂, entry)
        | none => .error ⟨.internal, "stored entry missing"⟩

/-- Environment event: the start() promise of the entry stored for key k
settles with the given outcome. The stored client promise (which is
initializationPromise.then of the client) settles identically; a start
failure leaves the runtime terminated, a success makes it running. Only a
pending entry can settle, and a promise settles once. -/
def settleStart (k : Nat) (outcome : Except FirestoreError Unit) (s : Sys) : Sys :=
  match alget k s.instances with
  | none => s
  | some e =>
    match e.settled with
    | some _ => s
    | none =>
      let s₁ : Sys :=
        { s with instances := alset k { e with settled := some outcome } s.instances }
      match alget e.clientId s.runtimes with
      | none => s₁
      | some c =>
        let st : RuntimeState :=
          match outcome with
          | .ok _ => .running
          | .error _ => .terminated
        { s₁ with runtimes := alset e.clientId { c with state := st } s₁.runtimes }

/-- Result of the removeFirestoreClient await step. -/
inductive RemoveOutcome where
  | pending
  | resolvedNoop
  | rejected (e : FirestoreError)
  | terminating (clientId : Nat)
  deriving DecidableEq, Repr

/-- removeFirestoreClient from exp components.ts, as the step that runs once
the awaited stored promise is no longer blocking. With no stored entry the
await of undefined yields undefined and the call resolves with no effect.
With a pending entry the await has not settled, so nothing happens yet.
With a rejected entry the await rethrows: the call rejects with the
construction error and the entry is left in the map. With a resolved entry
the code deletes the map entry and then returns the terminate() promise of
the client, so the runtime becomes terminating; a later settleTerminate
event completes the termination. -/
def removeFirestoreClient (fs : Firestore) (s : Sys) : RemoveOutcome × Sys :=
  match alget fs.key s.instances with
  | none => (.resolvedNoop, s)
  | some e =>
    match e.settled with
    | none => (.pending, s)
    | some (.error err) => (.rejected err, s)
    | some (.ok _) =>
      let s₁ : Sys := { s with instances := aldel fs.key s.instances }
      match alget e.clientId s₁.runtimes with
      | none => (.terminating e.clientId, s₁)
      | some c =>
        (.terminating e.clientId,
          { s₁ with runtimes := alset e.clientId { c with state := .terminating } s₁.runtimes })

/-- Environment event: the terminate() promise of client cid settles, at
which point the remove call that returned it resolves. -/
def settleTerminate (cid : Nat) (s : Sys) : Sys :=
  match alget cid s.runtimes with
  | none => s
  | some c => { s with runtimes := alset cid { c with state := .terminated } s.runtimes }

/-- The events that drive the exp lifecycle manager: the two public calls,
the remove step, and the environment settling start() and terminate(). -/
inductive Event where
  | getClient (fs : Firestore)
  | initClient (fs : Firestore) (p : ProviderKind) (ps : PersistenceSettings)
  | settle (k : Nat) (o : Except FirestoreError Unit)
  | removeClient (fs : Firestore)
  | settleTerm (cid : Nat)

/-- State transition of one event; a call that throws leaves the state
unchanged. -/
def step : Event → Sys → Sys
  | .getClient fs, s =>
    match getFirestoreClient fs s with
    | .ok (s₂, _) => s₂
    | .error _ => s
  | .initClient fs p ps, s =>
    match initializeFirestoreClient fs p ps s with
    | .ok (s₂, _) => s₂
    | .error _ => s
  | .settle k o, s => settleStart k o s
  | .removeClient fs, s => (removeFirestoreClient fs s).2
  | .settleTerm cid, s => settleTerminate cid s

/-- Run a list of events in order. -/
def run : List Event → Sys → Sys
  | [], s => s
  | e :: t, s => run t (step e s)

/-- Whether an event is the remove step for map key k. -/
def removesKey (k : Nat) : Event → Bool
  | .removeClient fs => fs.key = k
  | _ => false

/-- The lite Firestore handle (lite api/database): identity key plus the
fields read by lite components.ts. There is no terminated flag check in the
lite getDatastore. -/
structure LiteFirestore where
  key : Nat
  _databaseId : DatabaseId
  _persistenceKey : String
  _settings : Settings
  deriving DecidableEq, Repr

/-- A stored value of the lite datastoreInstances map: the promise identity,
the DatabaseInfo the datastore is being built from, and the settlement of
the newConnection-then-newDatastore chain. -/
structure DatastoreEntry where
  promiseId : Nat
  dbInfo : DatabaseInfo
  settled : Option (Except FirestoreError Unit)
  deriving DecidableEq, Repr

/-- State of the lite path: the datastoreInstances map and a fresh-id
counter for promise identities. -/
structure LiteSys where
  datastoreInstances : List (Nat × DatastoreEntry)
  nextId : Nat
  deriving DecidableEq, Repr

/-- The empty lite registry. -/
def emptyLiteSys : LiteSys := ⟨[], 0⟩

/-- getDatastore from lite components.ts: returns the stored entry, first
building the DatabaseInfo from the handle settings (defaulting host and
ssl, forceLongPolling false) and storing the datastore promise when no
entry exists. -/
def getDatastore (fs : LiteFirestore) (s : LiteSys) : LiteSys × DatastoreEntry :=
  match alget fs.key s.datastoreInstances with
  | some entry => (s, entry)
  | none =>
    let settings := fs._settings
    let databaseInfo : DatabaseInfo :=
      { databaseId := fs._databaseId
        persistenceKey := fs._persistenceKey
        host := settings.host.getD DEFAULT_HOST
        ssl := settings.ssl.getD DEFAULT_SSL
        forceLongPolling := false }
    let entry : DatastoreEntry := ⟨s.nextId, databaseInfo, none⟩
    ({ datastoreInstances := alset fs.key entry s.datastoreInstances
       nextId := s.nextId + 1 }, entry)

/-- removeDatastore from lite components.ts, as the post-await step,
mirroring removeFirestoreClient: no entry resolves as a no-op, a pending
entry keeps the await blocked, a rejected entry makes the call rethrow with
the entry intact, and a resolved entry is deleted before terminateDatastore
runs. -/
def removeDatastore (fs : LiteFirestore) (s : LiteSys) : RemoveOutcome × LiteSys :=
  match alget fs.key s.datastoreInstances with
  | none => (.resolvedNoop, s)
  | some e =>
    match e.settled with
    | none => (.pending, s)
    | some (.error err) => (.rejected err, s)
    | some (.ok _) =>
      (.terminating e.promiseId,
        { s with datastoreInstances := aldel fs.key s.datastoreInstances })

/-- Modelled from the spec: the CACHE_SIZE_UNLIMITED sentinel exported by
src/api/database, whose defining file is not part of this snapshot. The
spec describes it as the sentinel unlimited value of cacheSizeBytes. -/
def CACHE_SIZE_UNLIMITED : Int := -1

/-- Modelled from the spec: LruParams.MINIMUM_CACHE_SIZE_BYTES from
src/local/lru_garbage_collector, whose defining file is not part of this
snapshot. The spec describes it as the documented minimum cache size; one
mebibyte is used as its concrete value. -/
def MINIMUM_CACHE_SIZE_BYTES : Int := 1048576

/-- The INVALID_ARGUMENT error thrown by initializeFirestore for a cache
size below the minimum. -/
def cacheSizeError : FirestoreError :=
  ⟨.invalidArgument, "cacheSizeBytes must be at least the minimum"⟩

/-- initializeFirestore from the exp database file: validates
settings.cacheSizeBytes (defined, not the unlimited sentinel, below the
minimum is rejected) and otherwise configures the handle with the settings.
The function performs no network or storage work in either branch; a
validation failure is a synchronous throw. -/
def initializeFirestore (settings : Settings) : Except FirestoreError Settings :=
  match settings.cacheSizeBytes with
  | some n =>
    if n ≠ CACHE_SIZE_UNLIMITED ∧ n < MINIMUM_CACHE_SIZE_BYTES then
      .error cacheSizeError
    else
      .ok settings
  | none => .ok settings

/-- Submission mode of a task on the AsyncQueue. -/
inductive EnqueueMode where
  | normal
  | evenAfterShutdown
  deriving DecidableEq, Repr

/-- A task placed on the handle queue; clearTask k is the closure enqueued
by the clearPersistence path for the handle with key k. -/
inductive QueuedTask where
  | clearTask (key : Nat)
  deriving DecidableEq, Repr

/-- The error thrown by the clearPersistence guard while a client exists. -/
def clearPersistenceError : FirestoreError :=
  ⟨.failedPrecondition,
    "Persistence can only be cleared before a Firestore instance is initialized or after it is terminated."⟩

/-- Firestore clearPersistence guard from the exp database file: throws the
FAILED_PRECONDITION error when hasFirestoreClient holds, and otherwise
enqueues the clear closure with enqueueAndForgetEvenAfterShutdown and
returns the deferred promise. The queue is the handle's AsyncQueue; on the
throwing branch nothing is enqueued, so the delegate is never invoked. -/
def clearPersistence (fs : Firestore) (s : Sys) (queue : List (EnqueueMode × QueuedTask)) :
    Except FirestoreError (List (EnqueueMode × QueuedTask)) :=
  if hasFirestoreClient fs s then
    .error clearPersistenceError
  else
    .ok (queue ++ [(.evenAfterShutdown, .clearTask fs.key)])

/-- The body of the enqueued clear closure: awaits the delegate and settles
the deferred promise with its outcome, resolving on success and rejecting
with the caught error on failure. -/
def clearTaskBody (delegateOutcome : Except FirestoreError Unit) :
    Except FirestoreError Unit :=
  match delegateOutcome with
  | .ok _ => .ok ()
  | .error e => .error e

theorem getFirestoreClient_present (fs : Firestore) (s : Sys) (entry : ClientEntry)
    (ht : fs._terminated = false) (hfs : alget fs.key s.instances = some entry) :
    getFirestoreClient fs s = .ok (s, entry) := by
  simp [getFirestoreClient, ht, hfs]

theorem getFirestoreClient_absent (fs : Firestore) (s : Sys)
    (ht : fs._terminated = false) (hfs : alget fs.key s.instances = none) :
    getFirestoreClient fs s =
      .ok ({ instances := alset fs.key ⟨s.nextId + 1, s.nextId, none⟩ s.instances
             runtimes := alset s.nextId
               ⟨.starting,
                 ⟨fs._databaseId, fs._persistenceKey,
                   fs._settings.host.getD DEFAULT_HOST,
                   fs._settings.ssl.getD DEFAULT_SSL, false⟩,
                 .memory, { durable := false }⟩ s.runtimes
             nextId := s.nextId + 2 },
           ⟨s.nextId + 1, s.nextId, none⟩) := by
  simp [getFirestoreClient, initializeFirestoreClient, hasFirestoreClient, ht, hfs,
    alget_alset_self]

theorem initializeFirestoreClient_ok (fs : Firestore) (p : ProviderKind)
    (ps : PersistenceSettings) (s : Sys)
    (ht : fs._terminated = false) (hh : hasFirestoreClient fs s = false) :
    initializeFirestoreClient fs p ps s =
      .ok ({ instances := alset fs.key ⟨s.nextId + 1, s.nextId, none⟩ s.instances
             runtimes := alset s.nextId
               ⟨.starting,
                 ⟨fs._databaseId, fs._persistenceKey,
                   fs._settings.host.getD DEFAULT_HOST,
                   fs._settings.ssl.getD DEFAULT_SSL, false⟩,
                 p, ps⟩ s.runtimes
             nextId := s.nextId + 2 },
           s.nextId + 1) := by
  simp [initializeFirestoreClient, ht, hh]

/-- Every event that is not the remove step for key k preserves the stored
entry at k: the stored promise and its client keep their identities (only
the settlement field may change). This is the heart of the single-flight
argument and of entry poisoning. -/
theorem step_preserves_entry (ev : Event) (s : Sys) (k : Nat) (e : ClientEntry)
    (he : alget k s.instances = some e) (hev : removesKey k ev = false) :
    ∃ e₂, alget k (step ev s).instances = some e₂ ∧
      e₂.promiseId = e.promiseId ∧ e₂.clientId = e.clientId := by
  cases ev with
  | getClient fs =>
    by_cases ht : fs._terminated
    · exact ⟨e, by simp [step, getFirestoreClient, ht, he], rfl, rfl⟩
    · rcases hfs : alget fs.key s.instances with _ | entry
      · have hk : fs.key ≠ k := fun h => by rw [h, he] at hfs; cases hfs
        refine ⟨e, ?_, rfl, rfl⟩
        rw [step, getFirestoreClient_absent fs s (by simp [ht]) hfs]
        simpa [alget_alset_ne _ _ _ _ (Ne.symm hk)] using he
      · refine ⟨e, ?_, rfl, rfl⟩
        rw [step, getFirestoreClient_present fs s entry (by simp [ht]) hfs]
        exact he
  | initClient fs p ps =>
    by_cases hg : fs._terminated = true ∨ hasFirestoreClient fs s = true
    · refine ⟨e, ?_, rfl, rfl⟩
      have : initializeFirestoreClient fs p ps s = .error alreadyStartedError := by
        rcases hg with h | h <;> simp [initializeFirestoreClient, h]
      rw [step, this]
      exact he
    · push_neg at hg
      obtain ⟨ht, hh⟩ := hg
      have ht₂ : fs._terminated = false := by
        cases h : fs._terminated
        · rfl
        · exact absurd h ht
      have hh₂ : hasFirestoreClient fs s = false := by
        cases h : hasFirestoreClient fs s
        · rfl
        · exact absurd h hh
      have hk : fs.key ≠ k := by
        intro h
        rw [hasFirestoreClient, h, he] at hh₂
        cases hh₂
      refine ⟨e, ?_, rfl, rfl⟩
      rw [step, initializeFirestoreClient_ok fs p ps s ht₂ hh₂]
      simpa [alget_alset_ne _ _ _ _ (Ne.symm hk)] using he
  | settle k₂ o =>
    by_cases hk : k₂ = k
    · subst hk
      rcases ho : e.settled with _ | o₂
      · refine ⟨{ e with settled := some o }, ?_, rfl, rfl⟩
        simp only [step, settleStart, he, ho]
        rcases hcl : alget e.clientId s.runtimes with _ | c <;>
          simp [hcl, alget_alset_self]
      · exact ⟨e, by simp [step, settleStart, he, ho], rfl, rfl⟩
    · rcases hfs : alget k₂ s.instances with _ | e₂
      · exact ⟨e, by simp [step, settleStart, hfs, he], rfl, rfl⟩
      · rcases ho : e₂.settled with _ | o₂
        · refine ⟨e, ?_, rfl, rfl⟩
          simp only [step, settleStart, hfs, ho]
          rcases hcl : alget e₂.clientId s.runtimes with _ | c <;>
            simpa [hcl, alget_alset_ne _ _ _ _ (Ne.symm hk)] using he
        · exact ⟨e, by simp [step, settleStart, hfs, ho, he], rfl, rfl⟩
  | removeClient fs =>
    have hk : fs.key ≠ k := by
      simp only [removesKey] at hev
      simpa using hev
    refine ⟨e, ?_, rfl, rfl⟩
    rcases hfs : alget fs.key s.instances with _ | e₂
    · simpa [step, removeFirestoreClient, hfs] using he
    · rcases ho : e₂.settled with _ | o₂
      · simpa [step, removeFirestoreClient, hfs, ho] using he
      · rcases o₂ with err | u
        · simpa [step, removeFirestoreClient, hfs, ho] using he
        · simp only [step, removeFirestoreClient, hfs, ho]
          rcases hcl : alget e₂.clientId s.runtimes with _ | c <;>
            simpa [hcl, alget_aldel_ne _ _ _ (Ne.symm hk)] using he
  | settleTerm cid =>
    refine ⟨e, ?_, rfl, rfl⟩
    simp only [step, settleTerminate]
    rcases hcl : alget cid s.runtimes with _ | c <;> simpa [hcl] using he

/-- Entry preservation extended to a whole run of events, none of which is
the remove step for key k. -/
theorem run_preserves_entry (tr : List Event) (s : Sys) (k : Nat) (e : ClientEntry)
    (he : alget k s.instances = some e)
    (hev : ∀ ev ∈ tr, removesKey k ev = false) :
    ∃ e₂, alget k (run tr s).instances = some e₂ ∧
      e₂.promiseId = e.promiseId ∧ e₂.clientId = e.clientId := by
  induction tr generalizing s e with
  | nil => exact ⟨e, he, rfl, rfl⟩
  | cons ev t ih =>
    obtain ⟨e₂, he₂, hp, hc⟩ :=
      step_preserves_entry ev s k e he (hev ev (List.mem_cons_self ev t))
    obtain ⟨e₃, he₃, hp₂, hc₂⟩ :=
      ih (step ev s) e₂ he₂ (fun x hx => hev x (List.mem_cons_of_mem ev hx))
    exact ⟨e₃, he₃, hp₂.trans hp, hc₂.trans hc⟩

theorem getFirestoreClient_ok_inv (fs : Firestore) (s s₁ : Sys) (e₁ : ClientEntry)
    (h : getFirestoreClient fs s = .ok (s₁, e₁)) :
    fs._terminated = false ∧ alget fs.key s₁.instances = some e₁ := by
  by_cases ht : fs._terminated
  · simp [getFirestoreClient, ht] at h
  · have ht₂ : fs._terminated = false := by simpa using ht
    refine ⟨ht₂, ?_⟩
    rcases hfs : alget fs.key s.instances with _ | entry
    · rw [getFirestoreClient_absent fs s ht₂ hfs] at h
      simp only [Except.ok.injEq, Prod.mk.injEq] at h
      obtain ⟨h₁, h₂⟩ := h
      rw [← h₁, ← h₂]
      simp [alget_alset_self]
    · rw [getFirestoreClient_present fs s entry ht₂ hfs] at h
      simp only [Except.ok.injEq, Prod.mk.injEq] at h
      obtain ⟨h₁, h₂⟩ := h
      rw [← h₁, ← h₂]
      exact hfs

/-- A concrete live handle used by the witnesses. -/
def fsA : Firestore := ⟨0, false, ⟨"proj", "db"⟩, "pkey", {}⟩

/-- A concrete terminated handle with no stored entry. -/
def fsTerm : Firestore := ⟨0, true, ⟨"proj", "db"⟩, "pkey", {}⟩

/-- A concrete construction-failure error. -/
def errX : FirestoreError := ⟨.internal, "connection failed"⟩

/-- The state after provisioning fsA and a failed start(): the stored entry
is rejected. -/
def sRejected : Sys := run [.getClient fsA, .settle 0 (.error errX)] emptySys

/-- The state after provisioning fsA and a successful start(): the stored
entry is resolved. -/
def sResolved : Sys := run [.getClient fsA, .settle 0 (.ok ())] emptySys

/-- The state and entry produced by the first getFirestoreClient on fsA. -/
def sA1 : Sys :=
  ⟨[(0, ⟨1, 0, none⟩)],
   [(0, ⟨.starting, ⟨⟨"proj", "db"⟩, "pkey", DEFAULT_HOST, true, false⟩,
       .memory, ⟨false, none, none⟩⟩)], 2⟩

/-- The entry stored for fsA by the first getFirestoreClient. -/
def eA1 : ClientEntry := ⟨1, 0, none⟩

/-- C1: for every handle, two getOrCreate calls with no intervening remove
of that handle return the same stored future (same promise identity,
resolving to the same client runtime), and the second call constructs
nothing, returning the state unchanged; likewise the lite getDatastore
returns the already-stored entry on a repeated call. -/
theorem c1_single_flight (fs : Firestore) (s s₁ : Sys) (e₁ : ClientEntry)
    (tr : List Event)
    (h₁ : getFirestoreClient fs s = .ok (s₁, e₁))
    (hnr : ∀ ev ∈ tr, removesKey fs.key ev = false) :
    (∃ e₂, getFirestoreClient fs (run tr s₁) = .ok (run tr s₁, e₂) ∧
        e₂.promiseId = e₁.promiseId ∧ e₂.clientId = e₁.clientId) ∧
    (∀ (lf : LiteFirestore) (ls : LiteSys),
      getDatastore lf (getDatastore lf ls).1 =
        ((getDatastore lf ls).1, (getDatastore lf ls).2)) := by
  obtain ⟨ht, he⟩ := getFirestoreClient_ok_inv fs s s₁ e₁ h₁
  constructor
  · obtain ⟨e₂, he₂, hp, hc⟩ := run_preserves_entry tr s₁ fs.key e₁ he hnr
    exact ⟨e₂, getFirestoreClient_present fs (run tr s₁) e₂ ht he₂, hp, hc⟩
  · intro lf ls
    rcases hfs : alget lf.key ls.datastoreInstances with _ | entry
    · simp only [getDatastore, hfs]
      simp [alget_alset_self]
    · simp [getDatastore, hfs]

/-- C1 witness: the general theorem applied to the concrete handle fsA,
first call on the empty registry, empty intervening trace. -/
theorem c1_single_flight_witness :
    (∃ e₂, getFirestoreClient fsA (run [] sA1) = .ok (run [] sA1, e₂) ∧
        e₂.promiseId = eA1.promiseId ∧ e₂.clientId = eA1.clientId) ∧
    (∀ (lf : LiteFirestore) (ls : LiteSys),
      getDatastore lf (getDatastore lf ls).1 =
        ((getDatastore lf ls).1, (getDatastore lf ls).2)) :=
  c1_single_flight fsA emptySys sA1 eA1 [] (by decide) (by simp)

/-- C2 counterexample: on a terminated handle with no stored entry the
claimed condition (entry exists and its runtime is not terminated) is
false, yet initializeFirestoreClient throws the FAILED_PRECONDITION
already-started error, so the failure condition is not exactly the claimed
one. -/
theorem c2_counterexample :
    hasFirestoreClient fsTerm emptySys = false ∧
    initializeFirestoreClient fsTerm .memory ⟨false, none, none⟩ emptySys =
      .error alreadyStartedError := by
  constructor <;> rfl

/-- C2 amended: initializeWithProvider fails with the already-started
FAILED_PRECONDITION error exactly when the handle is terminated or an entry
already exists; the failure is synchronous, leaving the state unchanged
with nothing constructed; in particular a second call in sequence without
an intervening remove fails with this error. -/
theorem c2_amended (fs : Firestore) (p p₂ : ProviderKind)
    (ps ps₂ : PersistenceSettings) (s s₂ : Sys) (pid : Nat)
    (hok : initializeFirestoreClient fs p ps s = .ok (s₂, pid)) :
    initializeFirestoreClient fs p₂ ps₂ s₂ = .error alreadyStartedError ∧
    (∀ (fs₂ : Firestore) (s₃ : Sys),
      (initializeFirestoreClient fs₂ p ps s₃ = .error alreadyStartedError ↔
        (fs₂._terminated = true ∨ hasFirestoreClient fs₂ s₃ = true))) ∧
    (∀ (fs₂ : Firestore) (s₃ : Sys),
      fs₂._terminated = true ∨ hasFirestoreClient fs₂ s₃ = true →
        step (.initClient fs₂ p ps) s₃ = s₃) := by
  have herr : ∀ (fs₂ : Firestore) (s₃ : Sys),
      (fs₂._terminated || hasFirestoreClient fs₂ s₃) = true →
      initializeFirestoreClient fs₂ p₂ ps₂ s₃ = .error alreadyStartedError := by
    intro fs₂ s₃ hg
    simp [initializeFirestoreClient, hg]
  have herr₁ : ∀ (fs₂ : Firestore) (s₃ : Sys),
      (fs₂._terminated || hasFirestoreClient fs₂ s₃) = true →
      initializeFirestoreClient fs₂ p ps s₃ = .error alreadyStartedError := by
    intro fs₂ s₃ hg
    simp [initializeFirestoreClient, hg]
  refine ⟨?_, ?_, ?_⟩
  · by_cases hg : (fs._terminated || hasFirestoreClient fs s) = true
    · rw [herr₁ fs s hg] at hok
      cases hok
    · have ht : fs._terminated = false := by
        rcases h : fs._terminated
        · rfl
        · exact absurd (by simp [h]) hg
      have hh : hasFirestoreClient fs s = false := by
        rcases h : hasFirestoreClient fs s
        · rfl
        · exact absurd (by simp [h]) hg
      rw [initializeFirestoreClient_ok fs p ps s ht hh] at hok
      simp only [Except.ok.injEq, Prod.mk.injEq] at hok
      apply herr
      rw [← hok.1]
      simp [hasFirestoreClient, alget_alset_self]
  · intro fs₂ s₃
    constructor
    · intro h
      by_contra hg
      push_neg at hg
      have ht : fs₂._terminated = false := by
        rcases h₂ : fs₂._terminated
        · rfl
        · exact absurd h₂ hg.1
      have hh : hasFirestoreClient fs₂ s₃ = false := by
        rcases h₂ : hasFirestoreClient fs₂ s₃
        · rfl
        · exact absurd h₂ hg.2
      rw [initializeFirestoreClient_ok fs₂ p ps s₃ ht hh] at h
      cases h
    · intro hg
      apply herr₁
      rcases hg with h | h <;> simp [h]
  · intro fs₂ s₃ hg
    have := herr₁ fs₂ s₃ (by rcases hg with h | h <;> simp [h])
    simp [step, this]

/-- C2 amended witness: the amended theorem applied to the concrete handle
fsA with a successful first initialization on the empty registry. -/
theorem c2_amended_witness :
    initializeFirestoreClient fsA .indexedDb ⟨true, none, none⟩ sA1 =
      .error alreadyStartedError ∧
    (∀ (fs₂ : Firestore) (s₃ : Sys),
      (initializeFirestoreClient fs₂ .memory ⟨false, none, none⟩ s₃ =
          .error alreadyStartedError ↔
        (fs₂._terminated = true ∨ hasFirestoreClient fs₂ s₃ = true))) ∧
    (∀ (fs₂ : Firestore) (s₃ : Sys),
      fs₂._terminated = true ∨ hasFirestoreClient fs₂ s₃ = true →
        step (.initClient fs₂ .memory ⟨false, none, none⟩) s₃ = s₃) :=
  c2_amended fsA .memory .indexedDb ⟨false, none, none⟩ ⟨true, none, none⟩
    emptySys sA1 1 (by decide)

/-- C3 counterexample: for a handle whose construction failed (the stored
promise rejected with errX), removeFirestoreClient rejects with the
construction error instead of resolving successfully, and the entry is not
removed; this falsifies the claim that remove resolves with no error in the
failed-construction case. -/
theorem c3_counterexample :
    (removeFirestoreClient fsA sRejected).1 = .rejected errX ∧
    hasFirestoreClient fsA (removeFirestoreClient fsA sRejected).2 = true := by
  constructor <;> rfl

/-- C3 amended: remove first waits for the stored future to settle (a
pending entry leaves the call blocked with no effect); if construction was
never started (no entry) the call resolves successfully with no error and
no side effects; if construction failed, the call rejects with the
construction error and leaves the entry in the map. -/
theorem c3_amended (fs : Firestore) (s : Sys) :
    (alget fs.key s.instances = none →
      removeFirestoreClient fs s = (.resolvedNoop, s)) ∧
    (∀ e, alget fs.key s.instances = some e → e.settled = none →
      removeFirestoreClient fs s = (.pending, s)) ∧
    (∀ e err, alget fs.key s.instances = some e →
      e.settled = some (.error err) →
      removeFirestoreClient fs s = (.rejected err, s)) := by
  refine ⟨?_, ?_, ?_⟩
  · intro h
    simp [removeFirestoreClient, h]
  · intro e he hs
    simp [removeFirestoreClient, he, hs]
  · intro e err he hs
    simp [removeFirestoreClient, he, hs]

/-- C3 amended witness: the amended theorem at the concrete handle fsA and
the concrete rejected state, with each case premise discharged. -/
theorem c3_amended_witness :
    ((alget fsA.key sRejected.instances = none →
        removeFirestoreClient fsA sRejected = (.resolvedNoop, sRejected)) ∧
      (∀ e, alget fsA.key sRejected.instances = some e → e.settled = none →
        removeFirestoreClient fsA sRejected = (.pending, sRejected)) ∧
      (∀ e err, alget fsA.key sRejected.instances = some e →
        e.settled = some (.error err) →
        removeFirestoreClient fsA sRejected = (.rejected err, sRejected))) ∧
    removeFirestoreClient fsA sRejected = (.rejected errX, sRejected) :=
  ⟨c3_amended fsA sRejected,
    (c3_amended fsA sRejected).2.2 ⟨1, 0, some (.error errX)⟩ errX (by rfl) (by rfl)⟩

/-- C4 counterexample: for a handle with a successfully constructed
runtime, immediately after the remove step the entry is already gone from
the map while the runtime is still terminating, not yet terminated; this
falsifies the claim that the entry is deleted exactly when termination
completes and not before. -/
theorem c4_counterexample :
    hasFirestoreClient fsA (removeFirestoreClient fsA sResolved).2 = false ∧
    (alget 0 (removeFirestoreClient fsA sResolved).2.runtimes).map
        ClientRuntime.state = some RuntimeState.terminating := by
  constructor <;> rfl

/-- C4 amended: for a successfully constructed runtime, remove deletes the
entry as soon as the stored future has resolved, before termination
completes, and returns the terminate promise; once that promise settles the
entry is still absent and the runtime is terminated. -/
theorem c4_amended (fs : Firestore) (s : Sys) (e : ClientEntry)
    (he : alget fs.key s.instances = some e)
    (hs : e.settled = some (.ok ())) :
    (removeFirestoreClient fs s).1 = .terminating e.clientId ∧
    hasFirestoreClient fs (removeFirestoreClient fs s).2 = false ∧
    hasFirestoreClient fs
      (settleTerminate e.clientId (removeFirestoreClient fs s).2) = false ∧
    (∀ c, alget e.clientId s.runtimes = some c →
      alget e.clientId
          (settleTerminate e.clientId (removeFirestoreClient fs s).2).runtimes =
        some { c with state := .terminated }) := by
  rcases hcl : alget e.clientId s.runtimes with _ | c₀
  · have hrem : removeFirestoreClient fs s =
        (.terminating e.clientId, { s with instances := aldel fs.key s.instances }) := by
      simp [removeFirestoreClient, he, hs, hcl]
    refine ⟨by rw [hrem], ?_, ?_, ?_⟩
    · rw [hrem]
      simp [hasFirestoreClient, alget_aldel_self]
    · rw [hrem]
      simp only [settleTerminate]
      rcases hcl₂ : alget e.clientId
          ({ s with instances := aldel fs.key s.instances } : Sys).runtimes with _ | c₂ <;>
        simp [hcl₂, hasFirestoreClient, alget_aldel_self]
    · intro c hc
      exact absurd hc (by simp)
  · have hrem : removeFirestoreClient fs s =
        (.terminating e.clientId,
          { instances := aldel fs.key s.instances
            runtimes := alset e.clientId { c₀ with state := .terminating } s.runtimes
            nextId := s.nextId }) := by
      simp [removeFirestoreClient, he, hs, hcl]
    refine ⟨by rw [hrem], ?_, ?_, ?_⟩
    · rw [hrem]
      simp [hasFirestoreClient, alget_aldel_self]
    · rw [hrem]
      simp only [settleTerminate]
      rcases hcl₂ : alget e.clientId
          (alset e.clientId { c₀ with state := RuntimeState.terminating } s.runtimes) with _ | c₂ <;>
        simp [hcl₂, hasFirestoreClient, alget_aldel_self]
    · intro c hc
      injection hc with hc
      subst hc
      rw [hrem]
      simp [settleTerminate, alget_alset_self]

/-- C4 amended witness: the amended theorem at the concrete handle fsA and
the concrete resolved state. -/
theorem c4_amended_witness :
    (removeFirestoreClient fsA sResolved).1 = .terminating 0 ∧
    hasFirestoreClient fsA (removeFirestoreClient fsA sResolved).2 = false ∧
    hasFirestoreClient fsA
      (settleTerminate 0 (removeFirestoreClient fsA sResolved).2) = false ∧
    (∀ c, alget 0 sResolved.runtimes = some c →
      alget 0 (settleTerminate 0 (removeFirestoreClient fsA sResolved).2).runtimes =
        some { c with state := .terminated }) :=
  c4_amended fsA sResolved ⟨1, 0, some (.ok ())⟩ (by rfl) (by rfl)

/-- C5: on a handle with no stored entry and not terminated, getOrCreate
creates the entry with the default ephemeral memory provider and durable
false, stores the future in the map before construction completes (the
returned entry is the stored one and is still pending), and returns it
without blocking; hasEntry is true immediately after the call returns. -/
theorem c5_get_or_create_defaults (fs : Firestore) (s : Sys)
    (ht : fs._terminated = false)
    (hfs : alget fs.key s.instances = none) :
    ∃ s₂ e, getFirestoreClient fs s = .ok (s₂, e) ∧
      hasFirestoreClient fs s₂ = true ∧
      alget fs.key s₂.instances = some e ∧
      e.settled = none ∧
      alget e.clientId s₂.runtimes =
        some ⟨.starting,
          ⟨fs._databaseId, fs._persistenceKey, fs._settings.host.getD DEFAULT_HOST,
            fs._settings.ssl.getD DEFAULT_SSL, false⟩, .memory, ⟨false, none, none⟩⟩ := by
  refine ⟨_, _, getFirestoreClient_absent fs s ht hfs, ?_, ?_, rfl, ?_⟩
  · simp [hasFirestoreClient, alget_alset_self]
  · simp [alget_alset_self]
  · simp [alget_alset_self]

/-- C5 witness: the theorem at the concrete handle fsA on the empty
registry. -/
theorem c5_witness :
    ∃ s₂ e, getFirestoreClient fsA emptySys = .ok (s₂, e) ∧
      hasFirestoreClient fsA s₂ = true ∧
      alget fsA.key s₂.instances = some e ∧
      e.settled = none ∧
      alget e.clientId s₂.runtimes =
        some ⟨.starting,
          ⟨fsA._databaseId, fsA._persistenceKey,
            fsA._settings.host.getD DEFAULT_HOST,
            fsA._settings.ssl.getD DEFAULT_SSL, false⟩, .memory,
          ⟨false, none, none⟩⟩ :=
  c5_get_or_create_defaults fsA emptySys (by rfl) (by rfl)

/-- C6: initializeFirestore rejects a defined cacheSizeBytes with the
INVALID_ARGUMENT configuration error exactly when it is not the unlimited
sentinel and is below the documented minimum; in particular minimum minus
one is rejected, while the sentinel and every value at or above the minimum
are accepted. The embedded initializeFirestore performs no network or
storage work in any branch, so rejection happens before any I/O. -/
theorem c6_cache_size_validation (settings : Settings) (n : Int)
    (hn : settings.cacheSizeBytes = some n) :
    (initializeFirestore settings = .error cacheSizeError ↔
      (n ≠ CACHE_SIZE_UNLIMITED ∧ n < MINIMUM_CACHE_SIZE_BYTES)) ∧
    (n = MINIMUM_CACHE_SIZE_BYTES - 1 →
      initializeFirestore settings = .error cacheSizeError) ∧
    (n = CACHE_SIZE_UNLIMITED → initializeFirestore settings = .ok settings) ∧
    (MINIMUM_CACHE_SIZE_BYTES ≤ n → initializeFirestore settings = .ok settings) := by
  refine ⟨?_, ?_, ?_, ?_⟩
  · constructor
    · intro h
      by_contra hg
      simp only [initializeFirestore, hn] at h
      rcases hi : (decide (n ≠ CACHE_SIZE_UNLIMITED ∧ n < MINIMUM_CACHE_SIZE_BYTES)) with _ | _
      · rw [if_neg (by simpa using hi)] at h
        cases h
      · exact hg (by simpa using hi)
    · intro hg
      simp [initializeFirestore, hn, hg]
  · intro hval
    subst hval
    simp only [initializeFirestore, hn]
    rw [if_pos (by constructor <;> [decide; decide])]
  · intro hval
    subst hval
    simp [initializeFirestore, hn]
  · intro hle
    simp only [initializeFirestore, hn]
    rw [if_neg (by omega)]

/-- C6 witness: the theorem at the concrete settings with a cache size one
below the minimum, which the validation rejects. -/
theorem c6_witness :
    (initializeFirestore ⟨none, none, some 1048575⟩ = .error cacheSizeError ↔
      ((1048575 : Int) ≠ CACHE_SIZE_UNLIMITED ∧
        (1048575 : Int) < MINIMUM_CACHE_SIZE_BYTES)) ∧
    ((1048575 : Int) = MINIMUM_CACHE_SIZE_BYTES - 1 →
      initializeFirestore ⟨none, none, some 1048575⟩ = .error cacheSizeError) ∧
    ((1048575 : Int) = CACHE_SIZE_UNLIMITED →
      initializeFirestore ⟨none, none, some 1048575⟩ = .ok ⟨none, none, some 1048575⟩) ∧
    (MINIMUM_CACHE_SIZE_BYTES ≤ (1048575 : Int) →
      initializeFirestore ⟨none, none, some 1048575⟩ = .ok ⟨none, none, some 1048575⟩) :=
  c6_cache_size_validation ⟨none, none, some 1048575⟩ 1048575 (by rfl)

/-- C7: on a terminated handle, getOrCreate fails synchronously with the
FAILED_PRECONDITION already-terminated error and creates no entry: the
registry state is unchanged. -/
theorem c7_terminated_rejected (fs : Firestore) (s : Sys)
    (ht : fs._terminated = true) :
    getFirestoreClient fs s = .error alreadyTerminatedError ∧
    step (.getClient fs) s = s := by
  constructor
  · simp [getFirestoreClient, ht]
  · simp [step, getFirestoreClient, ht]

/-- C7 witness: the theorem at the concrete terminated handle. -/
theorem c7_witness :
    getFirestoreClient fsTerm emptySys = .error alreadyTerminatedError ∧
    step (.getClient fsTerm) emptySys = emptySys :=
  c7_terminated_rejected fsTerm emptySys (by rfl)

/-- C8: clearing persistence throws the FAILED_PRECONDITION error
synchronously when an entry exists for the handle, enqueuing nothing, so
the storage-clear delegate is never invoked; with no entry, the clear
closure is enqueued with the enqueue-even-after-shutdown mode and the
deferred promise settles with exactly the delegate outcome. -/
theorem c8_clear_persistence (fs : Firestore) (s : Sys)
    (q : List (EnqueueMode × QueuedTask)) :
    (hasFirestoreClient fs s = true →
      clearPersistence fs s q = .error clearPersistenceError) ∧
    (hasFirestoreClient fs s = false →
      clearPersistence fs s q =
        .ok (q ++ [(.evenAfterShutdown, .clearTask fs.key)])) ∧
    (∀ o, clearTaskBody o = o) := by
  refine ⟨?_, ?_, ?_⟩
  · intro h
    simp [clearPersistence, h]
  · intro h
    simp [clearPersistence, h]
  · intro o
    rcases o with e | u <;> rfl

/-- C8 witness: the theorem at the concrete handle fsA, both on a state
holding an entry for it and via the general conjuncts on the empty queue. -/
theorem c8_witness :
    ((hasFirestoreClient fsA sResolved = true →
        clearPersistence fsA sResolved [] = .error clearPersistenceError) ∧
      (hasFirestoreClient fsA sResolved = false →
        clearPersistence fsA sResolved [] =
          .ok ([] ++ [(.evenAfterShutdown, .clearTask fsA.key)])) ∧
      (∀ o, clearTaskBody o = o)) ∧
    clearPersistence fsA sResolved [] = .error clearPersistenceError :=
  ⟨c8_clear_persistence fsA sResolved [],
    (c8_clear_persistence fsA sResolved []).1 (by rfl)⟩

/-- C9: a failed construction poisons the entry: with a stored entry whose
promise rejected, hasEntry stays true, getOrCreate returns the same
rejected entry without changing the state (no retry of construction),
initializeWithProvider fails with the already-started error although no
live runtime exists, and no run of events avoiding the remove step for the
handle ever deletes the entry. -/
theorem c9_poisoned_entry (fs : Firestore) (s : Sys) (e : ClientEntry)
    (err : FirestoreError)
    (ht : fs._terminated = false)
    (he : alget fs.key s.instances = some e)
    (_hrej : e.settled = some (.error err)) :
    hasFirestoreClient fs s = true ∧
    getFirestoreClient fs s = .ok (s, e) ∧
    (∀ p ps, initializeFirestoreClient fs p ps s = .error alreadyStartedError) ∧
    (∀ tr, (∀ ev ∈ tr, removesKey fs.key ev = false) →
      ∃ e₂, alget fs.key (run tr s).instances = some e₂ ∧
        e₂.promiseId = e.promiseId ∧ e₂.clientId = e.clientId) := by
  have hh : hasFirestoreClient fs s = true := by
    simp [hasFirestoreClient, he]
  refine ⟨hh, getFirestoreClient_present fs s e ht he, ?_, ?_⟩
  · intro p ps
    simp [initializeFirestoreClient, hh]
  · intro tr htr
    exact run_preserves_entry tr s fs.key e he htr

/-- C9 witness: the theorem at the concrete handle fsA in the concrete
rejected state. -/
theorem c9_witness :
    hasFirestoreClient fsA sRejected = true ∧
    getFirestoreClient fsA sRejected = .ok (sRejected, ⟨1, 0, some (.error errX)⟩) ∧
    (∀ p ps, initializeFirestoreClient fsA p ps sRejected =
      .error alreadyStartedError) ∧
    (∀ tr, (∀ ev ∈ tr, removesKey fsA.key ev = false) →
      ∃ e₂, alget fsA.key (run tr sRejected).instances = some e₂ ∧
        e₂.promiseId = 1 ∧ e₂.clientId = 0) :=
  c9_poisoned_entry fsA sRejected ⟨1, 0, some (.error errX)⟩ errX
    (by rfl) (by rfl) (by rfl)

/-- C10: both provisioning paths build the DatabaseInfo with host defaulted
to the Google endpoint and ssl defaulted to true when the settings omit
them, forceLongPolling always false, and explicitly provided host and ssl
passed through unchanged. -/
theorem c10_database_info_defaults (fs : Firestore) (p : ProviderKind)
    (ps : PersistenceSettings) (s s₂ : Sys) (pid : Nat)
    (hok : initializeFirestoreClient fs p ps s = .ok (s₂, pid)) :
    (∃ e c, alget fs.key s₂.instances = some e ∧
      alget e.clientId s₂.runtimes = some c ∧
      c.dbInfo.host = fs._settings.host.getD DEFAULT_HOST ∧
      c.dbInfo.ssl = fs._settings.ssl.getD DEFAULT_SSL ∧
      c.dbInfo.forceLongPolling = false ∧
      (fs._settings.host = none → c.dbInfo.host = "firestore.googleapis.com") ∧
      (∀ x, fs._settings.host = some x → c.dbInfo.host = x) ∧
      (fs._settings.ssl = none → c.dbInfo.ssl = true) ∧
      (∀ b, fs._settings.ssl = some b → c.dbInfo.ssl = b)) ∧
    (∀ (lf : LiteFirestore) (ls : LiteSys),
      alget lf.key ls.datastoreInstances = none →
        ((getDatastore lf ls).2.dbInfo.host = lf._settings.host.getD DEFAULT_HOST ∧
          (getDatastore lf ls).2.dbInfo.ssl = lf._settings.ssl.getD DEFAULT_SSL ∧
          (getDatastore lf ls).2.dbInfo.forceLongPolling = false ∧
          (lf._settings.host = none →
            (getDatastore lf ls).2.dbInfo.host = "firestore.googleapis.com") ∧
          (∀ x, lf._settings.host = some x →
            (getDatastore lf ls).2.dbInfo.host = x))) := by
  constructor
  · by_cases hg : (fs._terminated || hasFirestoreClient fs s) = true
    · rw [show initializeFirestoreClient fs p ps s = .error alreadyStartedError by
        simp [initializeFirestoreClient, hg]] at hok
      cases hok
    · have ht : fs._terminated = false := by
        rcases h : fs._terminated
        · rfl
        · exact absurd (by simp [h]) hg
      have hh : hasFirestoreClient fs s = false := by
        rcases h : hasFirestoreClient fs s
        · rfl
        · exact absurd (by simp [h]) hg
      rw [initializeFirestoreClient_ok fs p ps s ht hh] at hok
      simp only [Except.ok.injEq, Prod.mk.injEq] at hok
      obtain ⟨h₁, h₂⟩ := hok
      refine ⟨⟨s.nextId + 1, s.nextId, none⟩,
        ⟨.starting,
          ⟨fs._databaseId, fs._persistenceKey, fs._settings.host.getD DEFAULT_HOST,
            fs._settings.ssl.getD DEFAULT_SSL, false⟩, p, ps⟩,
        ?_, ?_, rfl, rfl, rfl, ?_, ?_, ?_, ?_⟩
      · rw [← h₁]
        simp [alget_alset_self]
      · rw [← h₁]
        simp [alget_alset_self]
      · intro h
        simp [h, DEFAULT_HOST]
      · intro x h
        simp [h]
      · intro h
        simp [h, DEFAULT_SSL]
      · intro b h
        simp [h]
  · intro lf ls hfs
    simp only [getDatastore, hfs]
    refine ⟨trivial, trivial, trivial, ?_, ?_⟩
    · intro h
      simp [h, DEFAULT_HOST]
    · intro x h
      simp [h]

/-- C10 witness: the theorem at the concrete handle fsA with an explicit
successful initialization on the empty registry. -/
theorem c10_witness :
    (∃ e c, alget fsA.key sA1.instances = some e ∧
      alget e.clientId sA1.runtimes = some c ∧
      c.dbInfo.host = fsA._settings.host.getD DEFAULT_HOST ∧
      c.dbInfo.ssl = fsA._settings.ssl.getD DEFAULT_SSL ∧
      c.dbInfo.forceLongPolling = false ∧
      (fsA._settings.host = none → c.dbInfo.host = "firestore.googleapis.com") ∧
      (∀ x, fsA._settings.host = some x → c.dbInfo.host = x) ∧
      (fsA._settings.ssl = none → c.dbInfo.ssl = true) ∧
      (∀ b, fsA._settings.ssl = some b → c.dbInfo.ssl = b)) ∧
    (∀ (lf : LiteFirestore) (ls : LiteSys),
      alget lf.key ls.datastoreInstances = none →
        ((getDatastore lf ls).2.dbInfo.host = lf._settings.host.getD DEFAULT_HOST ∧
          (getDatastore lf ls).2.dbInfo.ssl = lf._settings.ssl.getD DEFAULT_SSL ∧
          (getDatastore lf ls).2.dbInfo.forceLongPolling = false ∧
          (lf._settings.host = none →
            (getDatastore lf ls).2.dbInfo.host = "firestore.googleapis.com") ∧
          (∀ x, lf._settings.host = some x →
            (getDatastore lf ls).2.dbInfo.host = x))) :=
  c10_database_info_defaults fsA .memory ⟨false, none, none⟩ emptySys sA1 1
    (by decide)

end FirebaseLifecycle
